import Mathlib

/-!
Shallow embedding of the stylesets variant-resolution core
(`src/variant.ts`, `src/package.ts`, `src/types.ts` StyleSet, and the
path utilities `Identifier`/`identify`), with theorems settling the
specification claims about it.

Conventions of the embedding:
- JS strings are Lean `String`; `path.split(".")` / `parts.join(".")`
  are embedded at the character level as `jsSplitDot` / `jsJoinDot`
  (single-character separator, empty segments preserved, exactly JS
  semantics).
- A JS `Map` built by iterating an object literal and calling `set` is
  an insertion-ordered association list built by `mapSet` (later
  duplicate keys overwrite in place, as `Map.set` does).
- A JS value that may be `undefined` is an `Option`.
- The argument actually passed to `Variant.compile` at its call sites is
  `undefined`, a string, or (through the unchecked `as string` cast in
  `Package.compile`) a string array; `JsSel` covers those shapes, and
  `selTruthy` is JS truthiness on it (empty string falsy, any array
  truthy).
-/

namespace Stylesets

/-- VariantValue from variant.ts: `string | string[]`. -/
inductive VariantValue where
  | str (s : String)
  | arr (l : List String)
deriving DecidableEq, Repr

/-- Selector value as it can actually reach `Variant.compile` at runtime:
`undefined`, a string, or a string array (via the `as string` cast). -/
inductive JsSel where
  | undef
  | strv (s : String)
  | arrv (l : List String)
deriving DecidableEq, Repr

/-- JS truthiness of a selector: `undefined` and `""` are falsy, every
array (even empty) is truthy. -/
def selTruthy : JsSel → Bool
  | JsSel.undef => false
  | JsSel.strv s => !(s == "")
  | JsSel.arrv _ => true

/-- One element of `VariantResult.value` after construction: either a
string token-group or JS `undefined` (which `new VariantResult(map.get(k))`
stores when the key is absent). -/
inductive RItem where
  | str (s : String)
  | undef
deriving DecidableEq, Repr

/-- RItem as rendered by `Array.prototype.join`: `undefined` becomes `""`. -/
def RItem.render : RItem → String
  | RItem.str s => s
  | RItem.undef => ""

/-- VariantResult from variant.ts: `this.value` is always an array after
the constructor runs. -/
structure VariantResult where
  value : List RItem
deriving DecidableEq, Repr

/-- Constructor call shape `new VariantResult(this.variants.get(k))`:
an array value is taken as the list itself, a string becomes a singleton,
and a missing key stores `[undefined]`. -/
def VariantResult.ofGet : Option VariantValue → VariantResult
  | some (VariantValue.arr l) => ⟨l.map RItem.str⟩
  | some (VariantValue.str s) => ⟨[RItem.str s]⟩
  | none => ⟨[RItem.undef]⟩

/-- Constructor call shape `new VariantResult(value)` with `value` a plain
string. -/
def VariantResult.ofString (s : String) : VariantResult :=
  ⟨[RItem.str s]⟩

/-- Constructor call shape `new VariantResult(strings)` with a string
array (the `variations.flatMap((v) => v)` call in `StyleSet.search`). -/
def VariantResult.ofList (l : List String) : VariantResult :=
  ⟨l.map RItem.str⟩

/-- VariantResult.toString: `this.value.join(" ")`. -/
def VariantResult.toString (r : VariantResult) : String :=
  String.intercalate " " (r.value.map RItem.render)

/-- VariantResult.length: `this.value` is always an array, so this is its
element count. -/
def VariantResult.length (r : VariantResult) : Nat :=
  r.value.length

/-- Map.set on an insertion-ordered association list: overwrite in place
when the key exists, append otherwise. -/
def mapSet {α : Type} (m : List (String × α)) (k : String) (v : α) :
    List (String × α) :=
  if (m.lookup k).isSome then
    m.map (fun p => if p.1 = k then (k, v) else p)
  else
    m ++ [(k, v)]

/-- Building a Map by iterating an object literal (`for key in obj`)
and calling `set` for each entry. -/
def mapOfObj {α : Type} (l : List (String × α)) : List (String × α) :=
  l.foldl (fun m kv => mapSet m kv.1 kv.2) []

/-- Variant from variant.ts: an insertion-ordered mapping of keys to
values. -/
structure Variant where
  variants : List (String × VariantValue)
deriving DecidableEq, Repr

/-- Variant constructor: `for key in obj { this.variants.set(key, obj[key]) }`. -/
def Variant.ofObj (l : List (String × VariantValue)) : Variant :=
  ⟨mapOfObj l⟩

/-- Map.get on the variant's mapping. -/
def Variant.get (V : Variant) (k : String) : Option VariantValue :=
  V.variants.lookup k

/-- Map.get applied to the raw selector: `this.variants.get(key)` where
`key` may be `undefined` or (through the cast) an array, neither of which
is ever a Map key here. -/
def Variant.getSel (V : Variant) : JsSel → Option VariantValue
  | JsSel.strv s => V.get s
  | _ => none

/-- Variant.compile from variant.ts lines 69-97, exactly as written:
whenever a `"default"` entry exists and holds a string, that default is
resolved (one indirection hop when the string names a present key) and
the `key` argument is never consulted; only when there is no
string-valued default does it fall through to `get(key)`. -/
def Variant.compile (V : Variant) (key : JsSel) : VariantResult :=
  match V.get "default" with
  | some (VariantValue.str s) =>
      if (V.get s).isSome then VariantResult.ofGet (V.get s)
      else VariantResult.ofString s
  | _ => VariantResult.ofGet (V.getSel key)

/-- Variant.toString from variant.ts lines 99-103: every value, flattened
(array entries spliced, string entries kept whole), joined by spaces, in
insertion order. -/
def Variant.toString (V : Variant) : String :=
  String.intercalate " "
    (V.variants.flatMap (fun p =>
      match p.2 with
      | VariantValue.arr l => l
      | VariantValue.str s => [s]))

/-- Package from package.ts: an insertion-ordered mapping of variant
names to Variants. -/
structure Package where
  variants : List (String × Variant)
deriving DecidableEq, Repr

/-- Package constructor: `for key in v { this.variants.set(key, new Variant(v[key])) }`. -/
def Package.ofObj (l : List (String × List (String × VariantValue))) : Package :=
  ⟨mapOfObj (l.map (fun p => (p.1, Variant.ofObj p.2)))⟩

/-- Map.get on the package's variant mapping. -/
def Package.get (P : Package) (k : String) : Option Variant :=
  P.variants.lookup k

/-- Selector chosen by `Package.compile` when an `args` object was
passed: `args[key] as string`, i.e. the entry when present, else
`undefined`. -/
def argSel (args : List (String × String)) (k : String) : JsSel :=
  match args.lookup k with
  | some s => JsSel.strv s
  | none => JsSel.undef

/-- Selector chosen by `Package.compile` when no `args` object was
passed: `variant.get("default") as string` guarded by
`variant.has("default")` (the source writes `variant.has`/`variant.get`,
which only the variant's backing Map provides — embedded as that Map
access; the `as string` cast lets an array-valued default through
unchanged). -/
def defSel (V : Variant) : JsSel :=
  match V.get "default" with
  | some (VariantValue.str s) => JsSel.strv s
  | some (VariantValue.arr l) => JsSel.arrv l
  | none => JsSel.undef

/-- Loop body of Package.compile lines 87-102: for each variant pick the
selector, and when it is truthy push `variant.compile(selector)` — the
pushed `VariantResult` object is always truthy, so the inner
`if (value)` never filters anything. -/
def Package.compileGo (args : Option (List (String × String))) :
    List (String × Variant) → List VariantResult
  | [] => []
  | kv :: rest =>
      let selector : JsSel :=
        match args with
        | some a => argSel a kv.1
        | none => defSel kv.2
      if selTruthy selector then
        kv.2.compile selector :: Package.compileGo args rest
      else
        Package.compileGo args rest

/-- Package.compile from package.ts lines 84-105: run the loop, then
`classes.join(" ")` (join stringifies every pushed result). -/
def Package.compile (P : Package) (args : Option (List (String × String))) :
    String :=
  String.intercalate " "
    ((Package.compileGo args P.variants).map VariantResult.toString)

/-- JS `s.split(".")` embedded at the character level: split the
character list on the dot, keeping empty segments (`"".split(".")` is
`[""]`). -/
def jsSplitDot (s : String) : List String :=
  (s.data.splitOn (Char.ofNat 46)).map (fun l => ⟨l⟩)

/-- JS `parts.join(".")` embedded at the character level. -/
def jsJoinDot (parts : List String) : String :=
  ⟨List.intercalate [Char.ofNat 46] (parts.map String.data)⟩

/-- Package.search from the package snapshot (lines 103-106):
`const [pkg, ...rest] = key.split("."); return
this.children.get(pkg)?.compile(rest.join("."))` — `undefined` (none)
when the first segment names no variant, thanks to optional chaining. -/
def Package.search (P : Package) (key : String) : Option VariantResult :=
  match jsSplitDot key with
  | [] => none
  | pkg :: rest => (P.get pkg).map (fun v => v.compile (JsSel.strv (jsJoinDot rest)))

/-- Identifier from the path utilities: the parsed (package, variant,
variation) triple. -/
structure Identifier where
  package : Option String
  variant : String
  variation : Option String
deriving DecidableEq, Repr

/-- Identifier constructor (`identify`): split on `"."`; one segment sets
only `variant`, two set `variant.variation`, three or more set
`package.variant.variation` (segments past the third are dropped).
`split` never yields an empty array in JS, so the `[]` branch is dead. -/
def Identifier.parse (path : String) : Identifier :=
  match jsSplitDot path with
  | [v] => ⟨none, v, none⟩
  | [v, va] => ⟨none, v, some va⟩
  | p :: v :: va :: _ => ⟨some p, v, some va⟩
  | [] => ⟨none, "", none⟩

/-- Identifier.getFullString: push `package` and `variation` only when
truthy (so null or empty-string parts are omitted), always push
`variant`, and join with dots. -/
def Identifier.getFullString (i : Identifier) : String :=
  jsJoinDot
    ((match i.package with
      | some p => if p = "" then [] else [p]
      | none => []) ++
     [i.variant] ++
     (match i.variation with
      | some va => if va = "" then [] else [va]
      | none => []))

/-- StyleSet from types.ts: an insertion-ordered mapping of package
names to Packages (the HierarchicalContainer children keyed by
`addChild(key, ...)`). -/
structure StyleSet where
  packages : List (String × Package)
deriving DecidableEq, Repr

/-- StyleSet constructor: `for key in obj { container.addChild(key, new Package(obj[key])) }`. -/
def StyleSet.ofObj
    (l : List (String × List (String × List (String × VariantValue)))) :
    StyleSet :=
  ⟨mapOfObj (l.map (fun p => (p.1, Package.ofObj p.2)))⟩

/-- StyleSet.findPackageByName: compares each child's name with the
parsed `identifiers.package`, which may be `null` — a null name matches
no child. -/
def StyleSet.findPackageByName (root : StyleSet) :
    Option String → Option Package
  | some n => root.packages.lookup n
  | none => none

/-- Loop of StyleSet.search (types.ts lines 100-121), with the
accumulated `variations` made explicit. Both push sites push strings
(each variant's `toString()` in the wildcard branch, the found result's
`toString()` otherwise), so the accumulator is a string list and the
final `flatMap((v) => v)` leaves it unchanged. -/
def StyleSet.searchGo (root : StyleSet) :
    List String → List String → Option VariantResult
  | variations, [] => some (VariantResult.ofList variations)
  | variations, path :: rest =>
      let ids := Identifier.parse path
      match root.findPackageByName ids.package with
      | none => none
      | some pkg =>
          match ids.variation with
          | none =>
              StyleSet.searchGo root
                (variations ++ pkg.variants.map (fun kv => kv.2.toString)) rest
          | some va =>
              if va = "*" then
                StyleSet.searchGo root
                  (variations ++ pkg.variants.map (fun kv => kv.2.toString)) rest
              else
                match pkg.search ids.getFullString with
                | none => none
                | some vr =>
                    StyleSet.searchGo root (variations ++ [vr.toString]) rest

/-- StyleSet.search from types.ts lines 93-124: run the loop over all
paths starting from an empty accumulator. -/
def StyleSet.search (root : StyleSet) (paths : List String) :
    Option VariantResult :=
  StyleSet.searchGo root [] paths

/-- Claim-side rendering of the dispatch C3 describes for
`Package.compile`: each variant's selector comes from `args[name]` when
that entry is present and otherwise from the variant's own `"default"`
entry when one exists; variants that resolve to empty are skipped and the
rest are space-joined in insertion order. (Written from the claim's
words, to be compared with `Package.compile` as implemented.) -/
def Package.compileSpec (P : Package) (args : List (String × String)) :
    String :=
  String.intercalate " "
    ((P.variants.map (fun kv =>
      match args.lookup kv.1 with
      | some s => (kv.2.compile (JsSel.strv s)).toString
      | none =>
          match kv.2.get "default" with
          | some (VariantValue.str s) => (kv.2.compile (JsSel.strv s)).toString
          | _ => "")).filter (fun s => !(s == "")))

/-- Variant of the padding example documented at the top of package.ts
(`padding: { sm: "p-1.5", md: "p-4", lg: "p-6", default: "sm" }`). -/
def paddingVariant : Variant :=
  Variant.ofObj
    [("sm", VariantValue.str "p-1.5"), ("md", VariantValue.str "p-4"),
     ("lg", VariantValue.str "p-6"), ("default", VariantValue.str "sm")]

/-- Variant `{ sm: ["small","medium"], default: "sm" }` from the
package test fixture. -/
def arrayWithDefault : Variant :=
  Variant.ofObj
    [("sm", VariantValue.arr ["small", "medium"]),
     ("default", VariantValue.str "sm")]

/-- Variant `{ sm: "p-4" }` with no default entry. -/
def noDefaultVariant : Variant :=
  Variant.ofObj [("sm", VariantValue.str "p-4")]

/-- Variant `{ sm: "small", default: "sm" }` from the package test
fixture. -/
def withDefaultVariant : Variant :=
  Variant.ofObj
    [("sm", VariantValue.str "small"), ("default", VariantValue.str "sm")]

/-- Variant whose default is a string that names no key. -/
def literalDefaultVariant : Variant :=
  Variant.ofObj
    [("sm", VariantValue.str "small"), ("default", VariantValue.str "blue")]

/-- Variant whose default is an array. -/
def arrDefaultVariant : Variant :=
  Variant.ofObj [("default", VariantValue.arr ["a", "b"])]

/-- Package fixture from package.spec.ts. -/
def testPackage : Package :=
  Package.ofObj
    [("withDefault",
      [("sm", VariantValue.str "small"), ("default", VariantValue.str "sm")]),
     ("withoutDefault", [("sm", VariantValue.str "small")]),
     ("arrayWithDefault",
      [("sm", VariantValue.arr ["small", "medium"]),
       ("default", VariantValue.str "sm")]),
     ("arrayWithoutDefault", [("sm", VariantValue.arr ["small", "medium"])])]

/-- The packageOne of the StyleSet documentation example in types.ts. -/
def docPackageOne : Package :=
  Package.ofObj
    [("variantA",
      [("variation1", VariantValue.arr ["a", "b"]),
       ("variation2", VariantValue.str "c")]),
     ("variantB",
      [("variation2", VariantValue.str "d"),
       ("variation3", VariantValue.arr ["e"])])]

/-- The StyleSet documentation example root of types.ts. -/
def docRoot : StyleSet :=
  StyleSet.ofObj
    [("packageOne",
      [("variantA",
        [("variation1", VariantValue.arr ["a", "b"]),
         ("variation2", VariantValue.str "c")]),
       ("variantB",
        [("variation2", VariantValue.str "d"),
         ("variation3", VariantValue.arr ["e"])])]),
     ("packageTwo",
      [("variantZ",
        [("variation3", VariantValue.arr ["f", "g", "h"]),
         ("variation4", VariantValue.str "i")])])]

/-- Splitting a string on dots and joining the pieces with dots gives the
string back. -/
theorem jsJoinDot_jsSplitDot (s : String) : jsJoinDot (jsSplitDot s) = s := by
  have hid : (String.data ∘ fun l : List Char => (⟨l⟩ : String)) = id := rfl
  have h1 : (jsSplitDot s).map String.data =
      s.data.splitOn (Char.ofNat 46) := by
    rw [jsSplitDot, List.map_map, hid, List.map_id]
  rw [jsJoinDot, h1, List.intercalate_splitOn]

/-- When some path of the list parses to a package name that
`findPackageByName` cannot resolve, the search loop returns none no
matter what was already accumulated. -/
theorem searchGo_none_of_abort (root : StyleSet) (p : String)
    (hb : root.findPackageByName (Identifier.parse p).package = none) :
    ∀ (paths : List String), p ∈ paths →
      ∀ acc, StyleSet.searchGo root acc paths = none := by
  intro paths
  induction paths with
  | nil => intro hp; cases hp
  | cons q rest ih =>
      intro hp acc
      rcases List.mem_cons.mp hp with hq | hq
      · subst hq
        simp [StyleSet.searchGo, hb]
      · cases hfind : root.findPackageByName (Identifier.parse q).package with
        | none => simp [StyleSet.searchGo, hfind]
        | some pkg =>
            cases hva : (Identifier.parse q).variation with
            | none =>
                simp only [StyleSet.searchGo, hfind, hva]
                exact ih hq _
            | some va =>
                by_cases hw : va = "*"
                · subst hw
                  simp only [StyleSet.searchGo, hfind, hva, if_pos rfl]
                  exact ih hq _
                · cases hs : pkg.search (Identifier.parse q).getFullString with
                  | none => simp [StyleSet.searchGo, hfind, hva, hw, hs]
                  | some vr =>
                      simp only [StyleSet.searchGo, hfind, hva, if_neg hw, hs]
                      exact ih hq _

/-- C1: the claim says a selector that is a present, non-wildcard key of
the mapping is returned directly, taking precedence over any default.
The code does the opposite: `Variant.compile` resolves a string-valued
`"default"` entry before ever consulting its `key` argument, so on the
padding variant documented in package.ts, `compile("md")` yields the
default-resolved `"p-1.5"` instead of `mapping["md"] = "p-4"`,
contradicting that documentation. -/
theorem c1_selector_ignored_when_default_present :
    paddingVariant.get "md" = some (VariantValue.str "p-4") ∧
    (paddingVariant.compile (JsSel.strv "md")).toString = "p-1.5" ∧
    ("p-1.5" : String) ≠ "p-4" := by
  refine ⟨rfl, rfl, ?_⟩
  decide

/-- C2 counterexample: on the documentation root of types.ts, the
wildcard search "packageOne.variantA.*" stringifies to "a b c d e" —
all of packageOne's variants, not just variantA's claimed "a b c"
(which is what variantA alone enumerates to). -/
theorem c2_cex_wildcard_is_package_scoped :
    (docRoot.search ["packageOne.variantA.*"]).map VariantResult.toString =
      some "a b c d e" ∧
    (docPackageOne.get "variantA").map Variant.toString = some "a b c" ∧
    ("a b c d e" : String) ≠ "a b c" := by
  refine ⟨rfl, rfl, ?_⟩
  decide

/-- C2 amended: a wildcard search path whose package resolves expands to
the values of ALL of that package's variants (each variant's full
enumeration), flattened in insertion order — the variant segment of the
path is ignored by the wildcard branch of `StyleSet.search`. -/
theorem c2_wildcard_expands_whole_package (root : StyleSet)
    (path n : String) (pkg : Package)
    (hn : (Identifier.parse path).package = some n)
    (hpkg : root.packages.lookup n = some pkg)
    (hw : (Identifier.parse path).variation = some "*") :
    root.search [path] =
      some (VariantResult.ofList
        (pkg.variants.map (fun kv => kv.2.toString))) := by
  have hfind : root.findPackageByName (Identifier.parse path).package =
      some pkg := by
    rw [hn]
    exact hpkg
  simp [StyleSet.search, StyleSet.searchGo, hfind, hw]

/-- C2 witness: the amended theorem applied to the documentation root
and the path "packageOne.variantA.*". -/
theorem c2_wildcard_witness :
    (Identifier.parse "packageOne.variantA.*").package = some "packageOne" ∧
    docRoot.packages.lookup "packageOne" = some docPackageOne ∧
    (Identifier.parse "packageOne.variantA.*").variation = some "*" ∧
    docRoot.search ["packageOne.variantA.*"] =
      some (VariantResult.ofList
        (docPackageOne.variants.map (fun kv => kv.2.toString))) :=
  ⟨rfl, rfl, rfl,
    c2_wildcard_expands_whole_package docRoot "packageOne.variantA.*"
      "packageOne" docPackageOne rfl rfl rfl⟩

/-- C3 counterexample: on the package.spec.ts fixture,
`compile({withDefault:"sm"})` returns "small": the variants absent from
`args` are skipped outright, whereas the claim's dispatch would resolve
arrayWithDefault through its own default and produce
"small small medium". -/
theorem c3_cex_defaults_not_used_with_args :
    testPackage.compile (some [("withDefault", "sm")]) = "small" ∧
    Package.compileSpec testPackage [("withDefault", "sm")] =
      "small small medium" ∧
    ("small" : String) ≠ "small small medium" := by
  refine ⟨rfl, rfl, ?_⟩
  decide

/-- C3 amended: when an args object is passed, `Package.compile`
resolves each variant solely from `args[variantName]` — a variant whose
entry is absent or empty is skipped and its own `"default"` entry is
never consulted (defaults only matter when no args object is passed at
all) — and the selected variants' compiled results are space-joined in
insertion order, even those that stringify to empty. -/
theorem c3_compile_with_args (P : Package) (args : List (String × String)) :
    P.compile (some args) =
      String.intercalate " "
        ((P.variants.filter (fun kv => selTruthy (argSel args kv.1))).map
          (fun kv => (kv.2.compile (argSel args kv.1)).toString)) := by
  rw [Package.compile]
  congr 1
  induction P.variants with
  | nil => rfl
  | cons kv rest ih =>
      simp only [Package.compileGo, List.filter_cons]
      by_cases h : selTruthy (argSel args kv.1)
      · simp [h, ih]
      · simp [h, ih]

/-- C4: the claim (and the repository's own package search tests, which
expect "arrayWithDefault.*" to give "small medium sm" and
"arrayWithoutDefault.*" to give "small medium") says the wildcard
selector bypasses default-resolution and returns every value flattened.
`Variant.compile` has no wildcard handling at all: with a string-valued
default present it default-resolves ("small medium"), and with no
default it looks up the literal key "*" and yields the empty result —
never the full enumeration that `Variant.toString` shows. -/
theorem c4_wildcard_not_supported_by_compile :
    (arrayWithDefault.compile (JsSel.strv "*")).toString = "small medium" ∧
    arrayWithDefault.toString = "small medium sm" ∧
    (noDefaultVariant.compile (JsSel.strv "*")).toString = "" ∧
    noDefaultVariant.toString = "p-4" ∧
    ("small medium" : String) ≠ "small medium sm" := by
  refine ⟨rfl, rfl, rfl, rfl, ?_⟩
  decide

/-- C5: when any path of a multi-path search names a package that the
root does not contain, `StyleSet.search` returns null for the whole
call, whatever the other paths would have produced. -/
theorem c5_unknown_package_aborts_search (root : StyleSet)
    (paths : List String) (p n : String) (hp : p ∈ paths)
    (hname : (Identifier.parse p).package = some n)
    (hmiss : root.packages.lookup n = none) :
    root.search paths = none := by
  have hb : root.findPackageByName (Identifier.parse p).package = none := by
    rw [hname]
    exact hmiss
  exact searchGo_none_of_abort root p hb paths hp []

/-- C5 witness: the first path resolves on its own, but the unknown
package in the second path makes the whole call return null. -/
theorem c5_witness :
    ("doesNotExist.x.y" ∈ ["packageOne.variantA.*", "doesNotExist.x.y"]) ∧
    (Identifier.parse "doesNotExist.x.y").package = some "doesNotExist" ∧
    docRoot.packages.lookup "doesNotExist" = none ∧
    docRoot.search ["packageOne.variantA.*", "doesNotExist.x.y"] = none :=
  ⟨by decide, rfl, rfl,
    c5_unknown_package_aborts_search docRoot
      ["packageOne.variantA.*", "doesNotExist.x.y"] "doesNotExist.x.y"
      "doesNotExist" (by decide) rfl rfl⟩

/-- C6: when the `"default"` entry holds a string that is a present key,
resolving with no selector equals resolving with that key — both return
the referenced entry, with the indirection capped at the single hop
`Variant.compile` performs. -/
theorem c6_default_indirection (V : Variant) (d : String)
    (hd : V.get "default" = some (VariantValue.str d))
    (hk : (V.get d).isSome = true) :
    V.compile JsSel.undef = V.compile (JsSel.strv d) := by
  simp [Variant.compile, hd, hk]

/-- C6 witness: the fixture variant with `default: "sm"` pointing at its
own "sm" key. -/
theorem c6_witness :
    withDefaultVariant.get "default" = some (VariantValue.str "sm") ∧
    (withDefaultVariant.get "sm").isSome = true ∧
    withDefaultVariant.compile JsSel.undef =
      withDefaultVariant.compile (JsSel.strv "sm") :=
  ⟨rfl, rfl, c6_default_indirection withDefaultVariant "sm" rfl rfl⟩

/-- C7 counterexample: an array-valued `"default"` is NOT returned
literally on selector-less resolution — `Variant.compile` only handles
string-valued defaults and falls through to the (absent) key lookup, so
`{default: ["a","b"]}` resolves to the undefined singleton that
stringifies to "", not to the literal array. -/
theorem c7_cex_array_default_dropped :
    arrDefaultVariant.get "default" = some (VariantValue.arr ["a", "b"]) ∧
    arrDefaultVariant.compile JsSel.undef ≠
      VariantResult.ofGet (some (VariantValue.arr ["a", "b"])) ∧
    (arrDefaultVariant.compile JsSel.undef).toString = "" := by
  refine ⟨rfl, ?_, rfl⟩
  decide

/-- C7 amended: when the `"default"` entry holds a string that names no
present key, selector-less resolution returns that string literally;
when the `"default"` entry holds an array, the default is dropped and
resolution yields the empty (undefined-key) result instead of the array. -/
theorem c7_default_literal (V : Variant) :
    (∀ s, V.get "default" = some (VariantValue.str s) → V.get s = none →
      V.compile JsSel.undef = VariantResult.ofString s) ∧
    (∀ l, V.get "default" = some (VariantValue.arr l) →
      V.compile JsSel.undef = VariantResult.ofGet none) := by
  constructor
  · intro s h1 h2
    simp [Variant.compile, h1, h2]
  · intro l h1
    simp [Variant.compile, h1, Variant.getSel]

/-- C7 witness: both halves of the amended theorem at the concrete
fixtures (string default "blue" naming no key, and the array default). -/
theorem c7_witness :
    (literalDefaultVariant.get "default" = some (VariantValue.str "blue") ∧
     literalDefaultVariant.get "blue" = none ∧
     literalDefaultVariant.compile JsSel.undef =
       VariantResult.ofString "blue") ∧
    (arrDefaultVariant.get "default" = some (VariantValue.arr ["a", "b"]) ∧
     arrDefaultVariant.compile JsSel.undef = VariantResult.ofGet none) :=
  ⟨⟨rfl, rfl, (c7_default_literal literalDefaultVariant).1 "blue" rfl rfl⟩,
   ⟨rfl, (c7_default_literal arrDefaultVariant).2 ["a", "b"] rfl⟩⟩

/-- C8: misses are soft. A variant with no `"default"` entry resolves
any absent, empty or unknown non-wildcard selector to a result that
stringifies to no tokens, and `Package.search` on an unknown variant
name returns null; both embedded functions are total, so no resolution
path throws. -/
theorem c8_soft_miss :
    (∀ (V : Variant) (sel : JsSel), V.get "default" = none →
      V.getSel sel = none → (V.compile sel).toString = "") ∧
    (∀ (P : Package) (k pkg : String) (rest : List String),
      jsSplitDot k = pkg :: rest → P.get pkg = none →
      P.search k = none) := by
  constructor
  · intro V sel h1 h2
    simp [Variant.compile, h1, h2]
    rfl
  · intro P k pkg rest hs hg
    simp [Package.search, hs, hg]

/-- C8 witness: an unknown key on a default-less variant stringifies to
"", and searching the fixture package for an unknown variant name
returns null. -/
theorem c8_witness :
    (noDefaultVariant.get "default" = none ∧
     noDefaultVariant.getSel (JsSel.strv "zzz") = none ∧
     (noDefaultVariant.compile (JsSel.strv "zzz")).toString = "") ∧
    (jsSplitDot "nope.sm" = ["nope", "sm"] ∧
     testPackage.get "nope" = none ∧
     testPackage.search "nope.sm" = none) :=
  ⟨⟨rfl, rfl, c8_soft_miss.1 noDefaultVariant (JsSel.strv "zzz") rfl rfl⟩,
   ⟨rfl, rfl, c8_soft_miss.2 testPackage "nope.sm" "nope" ["sm"] rfl rfl⟩⟩

/-- C9: parsing a well-formed dot path of one to three nonempty segments
and reconstructing the full string is the identity — parts are emitted
in the order package, variant, selector, with null parts omitted. -/
theorem c9_roundtrip (s : String)
    (hlen1 : 1 ≤ (jsSplitDot s).length)
    (hlen3 : (jsSplitDot s).length ≤ 3)
    (hne : ∀ p ∈ jsSplitDot s, p ≠ "") :
    (Identifier.parse s).getFullString = s := by
  have hjoin := jsJoinDot_jsSplitDot s
  rcases hsplit : jsSplitDot s with _ | ⟨a, _ | ⟨b, _ | ⟨c, tail⟩⟩⟩
  · rw [hsplit] at hlen1
    simp at hlen1
  · have ha : a ≠ "" := hne a (by rw [hsplit]; exact List.mem_singleton.mpr rfl)
    rw [hsplit] at hjoin
    simp only [Identifier.parse, hsplit, Identifier.getFullString]
    simpa using hjoin
  · have hb : b ≠ "" := hne b (by rw [hsplit]; simp)
    rw [hsplit] at hjoin
    simp only [Identifier.parse, hsplit, Identifier.getFullString]
    simpa [hb] using hjoin
  · have htail : tail = [] := by
      rw [hsplit] at hlen3
      simp only [List.length_cons] at hlen3
      exact List.eq_nil_of_length_eq_zero (by omega)
    subst htail
    have ha : a ≠ "" := hne a (by rw [hsplit]; simp)
    have hc : c ≠ "" := hne c (by rw [hsplit]; simp)
    rw [hsplit] at hjoin
    simp only [Identifier.parse, hsplit, Identifier.getFullString]
    simpa [ha, hc] using hjoin

/-- C9 witness: the round trip on the documented example path
"outline.size.md". -/
theorem c9_witness :
    1 ≤ (jsSplitDot "outline.size.md").length ∧
    (jsSplitDot "outline.size.md").length ≤ 3 ∧
    (∀ p ∈ jsSplitDot "outline.size.md", p ≠ "") ∧
    (Identifier.parse "outline.size.md").getFullString = "outline.size.md" :=
  ⟨by decide, by decide, by decide,
    c9_roundtrip "outline.size.md" (by decide) (by decide) (by decide)⟩

/-- C10: a path of fewer than three dot-separated segments parses with a
null package, no package of the root matches a null name, and the whole
search call aborts to null — short paths can never resolve through the
root entry point. -/
theorem c10_short_path_returns_null (root : StyleSet)
    (paths : List String) (p : String) (hp : p ∈ paths)
    (hlen : (jsSplitDot p).length < 3) :
    root.search paths = none := by
  have hnull : (Identifier.parse p).package = none := by
    rcases hsplit : jsSplitDot p with _ | ⟨a, _ | ⟨b, _ | ⟨c, tail⟩⟩⟩
    · simp [Identifier.parse, hsplit]
    · simp [Identifier.parse, hsplit]
    · simp [Identifier.parse, hsplit]
    · rw [hsplit] at hlen
      simp at hlen
      omega
  have hb : root.findPackageByName (Identifier.parse p).package = none := by
    rw [hnull]
    rfl
  exact searchGo_none_of_abort root p hb paths hp []

/-- C10 witness: the two-segment path "variantA.variation1" cannot
resolve through the documentation root. -/
theorem c10_witness :
    ("variantA.variation1" ∈ ["variantA.variation1"]) ∧
    (jsSplitDot "variantA.variation1").length < 3 ∧
    docRoot.search ["variantA.variation1"] = none :=
  ⟨by decide, by decide,
    c10_short_path_returns_null docRoot ["variantA.variation1"]
      "variantA.variation1" (by decide) (by decide)⟩

end Stylesets
